import Mathlib

/-!
Verification of the heading-detection and outline-building core of
`parse_pdf_and_classify.py`.

Python strings are embedded as `List Char`; Python floats are embedded as
exact rationals `ℚ` (the score weights 0.4, 0.3, 0.2, 0.1 and thresholds
0.5, 0.3, 0.45, 0.55, 0.7 are taken exactly); optional values
(`None`-able parameters) are `Option ℚ`.  Cased-character predicates
(`islower`, `isupper`, `istitle`, `title`) are modelled over the ASCII
letters, matching CPython behaviour on ASCII input.  The regular
expressions of the source are compiled by hand into executable
recognisers; each is written next to the pattern it implements.
-/

/-- Python `str.isspace` membership for one character: the whitespace
class used by `str.strip`, `str.split` and the regex class `\s`
(restricted to ASCII): space, tab, newline, carriage return, vertical
tab, form feed. -/
def pyIsSpace (c : Char) : Bool :=
  c == ' ' || c == '\t' || c == '\n' || c == '\r' || c == '\x0b' || c == '\x0c'

/-- Python `str.lstrip()`: drop leading whitespace. -/
def pyLStrip (l : List Char) : List Char := l.dropWhile pyIsSpace

/-- Python `str.rstrip()`: drop trailing whitespace. -/
def pyRStrip (l : List Char) : List Char := (l.reverse.dropWhile pyIsSpace).reverse

/-- Python `str.strip()`: drop leading and trailing whitespace. -/
def pyStrip (l : List Char) : List Char := pyLStrip (pyRStrip l)

/-- Helper for `pySplit`: accumulates the current (reversed) token. -/
def pySplitAux : List Char → List Char → List (List Char)
  | [], acc => if acc.isEmpty then [] else [acc.reverse]
  | c :: rest, acc =>
    if pyIsSpace c then
      if acc.isEmpty then pySplitAux rest []
      else acc.reverse :: pySplitAux rest []
    else pySplitAux rest (c :: acc)

/-- Python `str.split()` with no separator: split on runs of whitespace,
discarding empty tokens. -/
def pySplit (l : List Char) : List (List Char) := pySplitAux l []

/-- `len(line.split())` of the source. -/
def wordCount (l : List Char) : Nat := (pySplit l).length

/-- Python `str.islower()`: at least one cased character and no
uppercase character (ASCII model). -/
def pyIsLower (l : List Char) : Bool :=
  l.any Char.isLower && l.all (fun c => !c.isUpper)

/-- Python `str.isupper()`: at least one cased character and no
lowercase character (ASCII model). -/
def pyIsUpper (l : List Char) : Bool :=
  l.any Char.isUpper && l.all (fun c => !c.isLower)

/-- Helper for `pyIsTitle`: `prevCased` records whether the previous
character was cased, `found` whether a cased character was seen. -/
def pyIsTitleAux : List Char → Bool → Bool → Bool
  | [], _, found => found
  | c :: rest, prevCased, found =>
    if c.isUpper then !prevCased && pyIsTitleAux rest true true
    else if c.isLower then prevCased && pyIsTitleAux rest true true
    else pyIsTitleAux rest false found

/-- Python `str.istitle()`: uppercase letters follow only uncased
characters, lowercase letters follow only cased characters, and at least
one cased character occurs (ASCII model). -/
def pyIsTitle (l : List Char) : Bool := pyIsTitleAux l false false

/-- Stoplist of linking verbs from line 35 of the source. -/
def stopVerbs : List (List Char) :=
  ["is".toList, "are".toList, "was".toList, "has".toList,
   "have".toList, "were".toList, "will".toList]

/-- `any(verb in line.lower().split() for verb in [...])` of the source:
lowercase the line, split on whitespace, and test exact token
membership. -/
def hasStopVerb (l : List Char) : Bool :=
  stopVerbs.any (fun v => (pySplit (l.map Char.toLower)).contains v)

/-- Tail of the regex `^\d+(\.\d+)*\s` after at least one digit has been
read: succeed on a whitespace character, continue over further digits,
and on a period require an immediate digit. -/
def numTailAfterDigit : List Char → Bool
  | [] => false
  | c :: rest =>
    if pyIsSpace c then true
    else if c.isDigit then numTailAfterDigit rest
    else if c == '.' then
      match rest with
      | d :: tl => d.isDigit && numTailAfterDigit tl
      | [] => false
    else false

/-- `re.match(r'^\d+(\.\d+)*\s', line)` of the source: one or more
groups of digits separated by single periods, followed by a whitespace
character, anchored at the start. -/
def numericSectionStart : List Char → Bool
  | [] => false
  | c :: rest => c.isDigit && numTailAfterDigit rest

/-- Tail of the regex `\[\d+\]` after `[` and one digit: zero or more
further digits then `]`. -/
def moreDigitsClose : List Char → Bool
  | [] => false
  | c :: rest => c == ']' || (c.isDigit && moreDigitsClose rest)

/-- Does the regex `\[\d+\]` match at the head of the list? -/
def bracketIntHere : List Char → Bool
  | c1 :: c2 :: rest => c1 == '[' && c2.isDigit && moreDigitsClose rest
  | _ => false

/-- `re.search(r'\[\d+\]', line)` of the source: a bracketed integer
occurs somewhere in the line. -/
def searchBracketInt : List Char → Bool
  | [] => false
  | c :: rest => bracketIntHere (c :: rest) || searchBracketInt rest

/-- `re.match(r'^[•\-→]', line)` of the source: the line starts with a
bullet or arrow glyph. -/
def startsWithBullet : List Char → Bool
  | [] => false
  | c :: _ => c == '•' || c == '-' || c == '→'

/-- `re.search(r'[.;,!?]$', line)` of the source (the line is already
stripped, so `$` is the end of the string): the last character is
sentence-terminal punctuation. -/
def endsSentencePunct (l : List Char) : Bool :=
  match l.getLast? with
  | some c => c == '.' || c == ';' || c == ',' || c == '!' || c == '?'
  | none => false

/-- `line.endswith(':')` of the source. -/
def endsWithColon (l : List Char) : Bool :=
  match l.getLast? with
  | some c => c == ':'
  | none => false

/-- `if font_size and font_size >= 12: score += 0.4` (a `font_size` of 0
is falsy in Python, hence the extra disequality). -/
def fontSizeBoost (fs : Option ℚ) : ℚ :=
  match fs with
  | some v => if v ≠ 0 ∧ 12 ≤ v then 0.4 else 0
  | none => 0

/-- `if y_pos is not None and y_pos < 0.3: score += 0.1`. -/
def yPosBoost (y : Option ℚ) : ℚ :=
  match y with
  | some v => if v < 0.3 then 0.1 else 0
  | none => 0

/-- Centre-alignment boost of lines 67-70 of the source. -/
def centerBoost (x w pw : Option ℚ) : ℚ :=
  match x, w, pw with
  | some xv, some wv, some pwv =>
    if 0.45 < (xv + wv / 2) / pwv ∧ (xv + wv / 2) / pwv < 0.55 then 0.1 else 0
  | _, _, _ => 0

/-- First character of a token is an uppercase letter (`w[0].isupper()`). -/
def wordHeadUpper : List Char → Bool
  | c :: _ => c.isUpper
  | [] => false

/-- Capitalisation-ratio boost of lines 72-76 of the source. -/
def capWordsBoost (l : List Char) : ℚ :=
  match pySplit l with
  | [] => 0
  | w :: ws =>
    if (0.7 : ℚ) < ((w :: ws).countP wordHeadUpper : ℚ) / ((w :: ws).length : ℚ)
    then 0.1 else 0

/-- Fallback score of lines 55-76 of the source, accumulated in source
order. -/
def headingScore (t : List Char) (fs : Option ℚ) (b : Bool)
    (y x w pw : Option ℚ) : ℚ :=
  fontSizeBoost fs
    + (if b then 0.3 else 0)
    + (if wordCount t < 10 then 0.2 else 0)
    + yPosBoost y
    + (if pyIsUpper t ∧ 2 < t.length then 0.2 else 0)
    + centerBoost x w pw
    + capWordsBoost t

/-- Body of `is_heading` after the strip and the emptiness test:
rejection rules, then acceptance rules, then the score threshold, in
source order (lines 28-78). -/
def is_heading_core (t : List Char) (fs : Option ℚ) (b : Bool)
    (y x w pw : Option ℚ) : Bool :=
  if 15 < wordCount t then false
  else if t.contains '.' ∧ 8 < wordCount t then false
  else if pyIsLower t then false
  else if hasStopVerb t then false
  else if searchBracketInt t then false
  else if startsWithBullet t then false
  else if endsSentencePunct t ∧ ¬ endsWithColon t then false
  else if numericSectionStart t then true
  else if endsWithColon t then true
  else if pyIsTitle t then true
  else if pyIsUpper t ∧ 2 < t.length then true
  else decide ((0.5 : ℚ) ≤ headingScore t fs b y x w pw)

/-- `is_heading` of the source (lines 10-78): strip the line, reject the
empty line, then run the rejection/acceptance/score cascade. -/
def is_heading (line : List Char) (font_size : Option ℚ) (is_bold : Bool)
    (y_pos x_pos width page_width : Option ℚ) : Bool :=
  if (pyStrip line).isEmpty then false
  else is_heading_core (pyStrip line) font_size is_bold y_pos x_pos width page_width

/-- Character class `[0-9\s\.\-]` of the title-cleaning regex
`re.sub(r'^[0-9\s\.\-]+', '', line)` (line 120 of the source). -/
def isTitleDecor (c : Char) : Bool :=
  c.isDigit || pyIsSpace c || c == '.' || c == '-'

/-- Python `text.split('\n')`: split at every newline, keeping empty
pieces (so the result is always non-empty). -/
def pySplitNl : List Char → List (List Char)
  | [] => [[]]
  | c :: rest =>
    if c == '\n' then [] :: pySplitNl rest
    else
      match pySplitNl rest with
      | [] => [[c]]
      | t :: ts => (c :: t) :: ts

/-- Helper for `pyTitlecase`: `prevCased` records whether the previous
character was cased. -/
def pyTitlecaseAux : List Char → Bool → List Char
  | [], _ => []
  | c :: rest, prevCased =>
    (if prevCased then c.toLower else c.toUpper)
      :: pyTitlecaseAux rest (c.isLower || c.isUpper)

/-- Python `str.title()`: the first cased character of each word is
uppercased, subsequent cased characters are lowercased (ASCII model). -/
def pyTitlecase (l : List Char) : List Char := pyTitlecaseAux l false

/-- `Path(pdf_path).stem.replace('_', ' ').title()` of line 129 of the
source, applied to the already-computed filename stem. -/
def titleFallback (stem : List Char) : List Char :=
  pyTitlecase (stem.map (fun c => if c == '_' then ' ' else c))

/-- The `for line in lines[:5]` loop body of lines 116-123 of the
source: strip the line, require the non-empty / length window, remove
the leading `[0-9\s\.\-]+` run, strip again, and return the first
non-empty result. -/
def firstTitle : List (List Char) → Option (List Char)
  | [] => none
  | l :: rest =>
    if ¬ (pyStrip l).isEmpty ∧ 3 < (pyStrip l).length ∧ (pyStrip l).length < 200 then
      if ¬ (pyStrip ((pyStrip l).dropWhile isTitleDecor)).isEmpty then
        some (pyStrip ((pyStrip l).dropWhile isTitleDecor))
      else firstTitle rest
    else firstTitle rest

/-- `extract_title_from_pdf` of lines 105-129 of the source.  The fitz
boundary is embedded as `pageText`: `some txt` is the plain text of
page 1, `none` stands for a document with no page, an unreadable
document, or any extraction-time exception — every such path reaches
the filename fallback of line 129. -/
def extract_title_from_pdf (pageText : Option (List Char)) (stem : List Char) :
    List Char :=
  match pageText with
  | none => titleFallback stem
  | some txt =>
    if txt.isEmpty then titleFallback stem
    else
      match firstTitle ((pySplitNl txt).take 5) with
      | some r => r
      | none => titleFallback stem

/-- One qualifying line of the Title Extractor, written from the words
of the claim: trimmed length strictly between 3 and 200, and a
non-empty remainder after stripping the leading run of digits,
whitespace, periods and hyphens; the remainder is the title. -/
def titleCandidate (l : List Char) : Option (List Char) :=
  if 3 < (pyStrip l).length ∧ (pyStrip l).length < 200
      ∧ ¬ ((pyStrip l).dropWhile isTitleDecor).isEmpty then
    some ((pyStrip l).dropWhile isTitleDecor)
  else none

/-- Title extraction written from the words of the claim: the first
qualifying line among at most the first 5 lines wins; otherwise (or on
an extraction fault, `pageText = none`) the filename stem with
underscores replaced by spaces, title-cased. -/
def extract_title_spec (pageText : Option (List Char)) (stem : List Char) :
    List Char :=
  match pageText with
  | none => titleFallback stem
  | some txt =>
    match ((pySplitNl txt).take 5).findSome? titleCandidate with
    | some r => r
    | none => titleFallback stem

/-- A text span sharing one font run, as produced by the fitz layout
boundary (`span` dictionaries of lines 90-100 of the source). -/
structure RawSpan where
  text : List Char
  size : ℚ
  font : List Char
  originX : ℚ
  originY : ℚ
  width : ℚ
deriving DecidableEq

/-- One visual line: an ordered list of spans. -/
structure RawLine where
  spans : List RawSpan
deriving DecidableEq

/-- One page: its rectangle geometry and its blocks (a block of the
fitz dictionary without a `lines` key is embedded as absent; blocks
carry their lines in reading order). -/
structure Page where
  rectWidth : ℚ
  rectHeight : ℚ
  blocks : List (List RawLine)
deriving DecidableEq

/-- `{'text': ..., 'page': ...}` accumulated by
`extract_headings_from_pdf`. -/
structure Heading where
  text : List Char
  page : Nat
deriving DecidableEq

/-- One entry of the final outline. -/
structure OutlineEntry where
  level : List Char
  text : List Char
  page : Nat
deriving DecidableEq

/-- The `{ "title": ..., "outline": ... }` value returned by
`process_pdf`. -/
structure PdfResult where
  title : List Char
  outline : List OutlineEntry
deriving DecidableEq

/-- One input document: the fitz boundary supplies the page-1 plain
text for the title extractor (`none` = unreadable), the filename stem,
and the per-page layout data. -/
structure Document where
  pageText : Option (List Char)
  stem : List Char
  pages : List Page
deriving DecidableEq

/-- `''.join([span['text'] for span in line['spans']]).strip()` (line 90). -/
def lineText (ln : RawLine) : List Char :=
  pyStrip (ln.spans.map RawSpan.text).flatten

/-- `max(font_sizes) if font_sizes else None` (lines 94-95). -/
def lineFontSize (ln : RawLine) : Option ℚ :=
  match ln.spans.map RawSpan.size with
  | [] => none
  | s :: ss => some (ss.foldl max s)

/-- Substring containment test, for `'Bold' in span.get('font', '')`. -/
def containsSubList (pat : List Char) : List Char → Bool
  | [] => pat.isEmpty
  | c :: t => pat.isPrefixOf (c :: t) || containsSubList pat t

/-- `any('Bold' in span.get('font', '') for span in line['spans'])` (line 96). -/
def lineIsBold (ln : RawLine) : Bool :=
  ln.spans.any (fun sp => containsSubList "Bold".toList sp.font)

/-- `line['spans'][0]['origin'][0] if line['spans'] else None` (line 98). -/
def lineXPos (ln : RawLine) : Option ℚ :=
  ln.spans.head?.map RawSpan.originX

/-- `line['spans'][0]['origin'][1] / page.rect.height if line['spans'] else None`
(line 99). -/
def lineYPos (p : Page) (ln : RawLine) : Option ℚ :=
  ln.spans.head?.map (fun sp => sp.originY / p.rectHeight)

/-- `sum(span.get('width', 0) for span in line['spans']) if line['spans'] else None`
(line 100). -/
def lineWidth (ln : RawLine) : Option ℚ :=
  match ln.spans with
  | [] => none
  | _ => some (ln.spans.map RawSpan.width).sum

/-- Lines 90-102 of the source for one line: the empty line is skipped,
otherwise the line is normalized and tested with `is_heading`; an
accepted line yields a `Heading` carrying the (1-based) page number. -/
def lineToHeading (p : Page) (pageNum : Nat) (ln : RawLine) : Option Heading :=
  if (lineText ln).isEmpty then none
  else if is_heading (lineText ln) (lineFontSize ln) (lineIsBold ln)
      (lineYPos p ln) (lineXPos ln) (lineWidth ln) (some p.rectWidth) then
    some ⟨lineText ln, pageNum⟩
  else none

/-- All accepted headings of one page, in reading order. -/
def headingsOfPage (pageNum : Nat) (p : Page) : List Heading :=
  p.blocks.flatMap (fun blk => blk.filterMap (lineToHeading p pageNum))

/-- The `for page_num, page in enumerate(doc, start=1)` loop of
`extract_headings_from_pdf` (lines 80-103 of the source). -/
def headingsFromPages : Nat → List Page → List Heading
  | _, [] => []
  | n, p :: ps => headingsOfPage n p ++ headingsFromPages (n + 1) ps

/-- `extract_headings_from_pdf` of the source. -/
def extract_headings_from_pdf (pages : List Page) : List Heading :=
  headingsFromPages 1 pages

/-- `process_pdf` of lines 131-164 of the source.  The classifier
boundary is embedded in `Except`: `loadModel` is `joblib.load`
(line 146) and `predict` is `model.predict` (line 150); an exception of
either is an `Except.error`, and the absence of any `try`/`except` in
`process_pdf` is reflected by the plain `match` propagation. -/
def process_pdf {E M : Type} (loadModel : Except E M)
    (predict : M → List (List Char) → Except E (List (List Char)))
    (doc : Document) : Except E PdfResult :=
  let title := extract_title_from_pdf doc.pageText doc.stem
  let headings := extract_headings_from_pdf doc.pages
  if headings.isEmpty then
    Except.ok ⟨title, []⟩
  else
    match loadModel with
    | Except.error e => Except.error e
    | Except.ok model =>
      match predict model (headings.map Heading.text) with
      | Except.error e => Except.error e
      | Except.ok levels =>
        Except.ok ⟨title, List.zipWith (fun h lv => ⟨lv, h.text, h.page⟩) headings levels⟩

/-- Fallback score written from the words of the claim: `headingScore`
with the `+0.2 if text is fully uppercase and length > 2` contribution
removed. -/
def headingScoreNoUpperBoost (t : List Char) (fs : Option ℚ) (b : Bool)
    (y x w pw : Option ℚ) : ℚ :=
  fontSizeBoost fs
    + (if b then 0.3 else 0)
    + (if wordCount t < 10 then 0.2 else 0)
    + yPosBoost y
    + centerBoost x w pw
    + capWordsBoost t

/-- Cascade body with the uppercase scoring contribution removed,
everything else unchanged. -/
def is_heading_core_noUpperBoost (t : List Char) (fs : Option ℚ) (b : Bool)
    (y x w pw : Option ℚ) : Bool :=
  if 15 < wordCount t then false
  else if t.contains '.' ∧ 8 < wordCount t then false
  else if pyIsLower t then false
  else if hasStopVerb t then false
  else if searchBracketInt t then false
  else if startsWithBullet t then false
  else if endsSentencePunct t ∧ ¬ endsWithColon t then false
  else if numericSectionStart t then true
  else if endsWithColon t then true
  else if pyIsTitle t then true
  else if pyIsUpper t ∧ 2 < t.length then true
  else decide ((0.5 : ℚ) ≤ headingScoreNoUpperBoost t fs b y x w pw)

/-- Variant of `is_heading` written from the words of the claim: the
uppercase scoring contribution is omitted, everything else is kept. -/
def is_heading_noUpperBoost (line : List Char) (font_size : Option ℚ)
    (is_bold : Bool) (y_pos x_pos width page_width : Option ℚ) : Bool :=
  if (pyStrip line).isEmpty then false
  else is_heading_core_noUpperBoost (pyStrip line) font_size is_bold
    y_pos x_pos width page_width

/-- A one-span line reading "Introduction" (Scenario F, page 1). -/
def introRawLine : RawLine :=
  ⟨[⟨"Introduction".toList, 14, "Helvetica-Bold".toList, 72, 60, 120⟩]⟩

/-- A one-span line reading "1.1 Background" (Scenario F, page 2). -/
def backgroundRawLine : RawLine :=
  ⟨[⟨"1.1 Background".toList, 12, "Helvetica".toList, 72, 60, 140⟩]⟩

/-- A one-span body-text line that every rule rejects (stoplist verb
"is", terminal period). -/
def bodyRawLine : RawLine :=
  ⟨[⟨"the model is trained on data.".toList, 10, "Helvetica".toList, 72, 300, 200⟩]⟩

/-- A two-page document matching Scenario F. -/
def docScenarioF : Document :=
  ⟨some "Sample Report\nbody text".toList, "sample_report".toList,
   [⟨612, 792, [[introRawLine]]⟩, ⟨612, 792, [[backgroundRawLine]]⟩]⟩

/-- A one-page document in which no line passes the filter. -/
def docNoHeadings : Document :=
  ⟨some "2024\nAcme Corp Annual Report\nbody".toList, "acme_report".toList,
   [⟨612, 792, [[bodyRawLine]]⟩]⟩

theorem is_heading_core_false_of_isLower (t : List Char) (fs : Option ℚ)
    (b : Bool) (y x w pw : Option ℚ) (h : pyIsLower t = true) :
    is_heading_core t fs b y x w pw = false := by
  simp [is_heading_core, h]

theorem is_heading_core_false_of_bracket (t : List Char) (fs : Option ℚ)
    (b : Bool) (y x w pw : Option ℚ) (h : searchBracketInt t = true) :
    is_heading_core t fs b y x w pw = false := by
  simp [is_heading_core, h]

theorem is_heading_core_true_of_accept (t : List Char) (fs : Option ℚ)
    (b : Bool) (y x w pw : Option ℚ)
    (h1 : wordCount t ≤ 15)
    (h2 : t.contains '.' = false ∨ wordCount t ≤ 8)
    (h3 : pyIsLower t = false)
    (h4 : hasStopVerb t = false)
    (h5 : searchBracketInt t = false)
    (h6 : startsWithBullet t = false)
    (h7 : endsSentencePunct t = false ∨ endsWithColon t = true)
    (hacc : numericSectionStart t = true ∨ endsWithColon t = true ∨
      pyIsTitle t = true ∨ (pyIsUpper t = true ∧ 2 < t.length)) :
    is_heading_core t fs b y x w pw = true := by
  have n1 : ¬ 15 < wordCount t := by omega
  have n2 : ¬ (t.contains '.' = true ∧ 8 < wordCount t) := by
    rintro ⟨a, ha⟩
    rcases h2 with h | h
    · rw [h] at a; exact Bool.false_ne_true a
    · omega
  have n7 : ¬ (endsSentencePunct t = true ∧ ¬ endsWithColon t = true) := by
    rintro ⟨a, ha⟩
    rcases h7 with h | h
    · rw [h] at a; exact Bool.false_ne_true a
    · exact ha h
  rw [is_heading_core, if_neg n1, if_neg n2, if_neg (by simp [h3]),
    if_neg (by simp [h4]), if_neg (by simp [h5]), if_neg (by simp [h6]),
    if_neg n7]
  rcases hacc with h | h | h | h
  · simp [h]
  · simp [h]
  · simp [h]
  · simp [h.1, h.2]

theorem pyIsSpace_cases {c : Char} (h : pyIsSpace c = true) :
    c = ' ' ∨ c = '\t' ∨ c = '\n' ∨ c = '\r' ∨ c = '\x0b' ∨ c = '\x0c' := by
  simpa [pyIsSpace, or_assoc] using h

theorem space_not_bracketChar {c : Char} (h : pyIsSpace c = true) :
    (c == '[') = false ∧ (c == ']') = false ∧ c.isDigit = false := by
  rcases pyIsSpace_cases h with rfl | rfl | rfl | rfl | rfl | rfl <;> decide

theorem bracketIntHere_cons_false {c : Char} (l : List Char)
    (h : (c == '[') = false) : bracketIntHere (c :: l) = false := by
  cases l <;> simp [bracketIntHere, h]

theorem searchBracketInt_all_space (l : List Char)
    (h : ∀ c ∈ l, pyIsSpace c = true) : searchBracketInt l = false := by
  induction l with
  | nil => rfl
  | cons c rest ih =>
    simp only [searchBracketInt]
    rw [bracketIntHere_cons_false _ (space_not_bracketChar (h c (by simp))).1,
      ih (fun d hd => h d (by simp [hd]))]
    rfl

theorem searchBracketInt_space_prefix (w l : List Char)
    (h : ∀ c ∈ w, pyIsSpace c = true) :
    searchBracketInt (w ++ l) = searchBracketInt l := by
  induction w with
  | nil => rfl
  | cons c rest ih =>
    simp only [List.cons_append, searchBracketInt, List.append_eq]
    rw [bracketIntHere_cons_false _ (space_not_bracketChar (h c (by simp))).1,
      ih (fun d hd => h d (by simp [hd]))]
    rfl

theorem moreDigitsClose_append_space (m w : List Char)
    (hw : ∀ c ∈ w, pyIsSpace c = true)
    (h : moreDigitsClose (m ++ w) = true) : moreDigitsClose m = true := by
  induction m with
  | nil =>
    exfalso
    cases w with
    | nil => simp [moreDigitsClose] at h
    | cons c rest =>
      have hc := space_not_bracketChar (hw c (by simp))
      simp [moreDigitsClose, hc.2.1, hc.2.2] at h
  | cons d m' ih =>
    simp only [List.cons_append, moreDigitsClose] at h ⊢
    cases hd : (d == ']') with
    | true => simp [hd]
    | false =>
      simp only [hd, Bool.false_or, Bool.and_eq_true] at h ⊢
      exact ⟨h.1, ih h.2⟩

theorem bracketIntHere_append_space (m w : List Char)
    (hw : ∀ c ∈ w, pyIsSpace c = true)
    (h : bracketIntHere (m ++ w) = true) : bracketIntHere m = true := by
  match m with
  | [] =>
    exfalso
    cases w with
    | nil => simp [bracketIntHere] at h
    | cons c1 rest =>
      cases rest with
      | nil => simp [bracketIntHere] at h
      | cons c2 rest2 =>
        have hc := space_not_bracketChar (hw c1 (by simp))
        simp [bracketIntHere, hc.1] at h
  | [c1] =>
    exfalso
    cases w with
    | nil => simp [bracketIntHere] at h
    | cons c2 rest =>
      have hc2 := space_not_bracketChar (hw c2 (by simp))
      simp [List.cons_append, bracketIntHere, hc2.2.2] at h
  | c1 :: c2 :: m' =>
    simp only [List.cons_append, bracketIntHere, Bool.and_eq_true] at h ⊢
    exact ⟨h.1, moreDigitsClose_append_space m' w hw h.2⟩

theorem searchBracketInt_append_space (l w : List Char)
    (hw : ∀ c ∈ w, pyIsSpace c = true)
    (h : searchBracketInt (l ++ w) = true) : searchBracketInt l = true := by
  induction l with
  | nil =>
    rw [List.nil_append] at h
    rw [searchBracketInt_all_space w hw] at h
    exact absurd h (by simp)
  | cons c l' ih =>
    simp only [List.cons_append, searchBracketInt, Bool.or_eq_true] at h ⊢
    rcases h with h1 | h2
    · exact Or.inl (bracketIntHere_append_space (c :: l') w hw
        (by simpa using h1))
    · exact Or.inr (ih h2)

theorem strip_decomposition (l : List Char) :
    ∃ w1 w2, (∀ c ∈ w1, pyIsSpace c = true) ∧ (∀ c ∈ w2, pyIsSpace c = true) ∧
      l = w1 ++ pyStrip l ++ w2 := by
  refine ⟨(pyRStrip l).takeWhile pyIsSpace,
    (l.reverse.takeWhile pyIsSpace).reverse, ?_, ?_, ?_⟩
  · intro c hc; exact List.mem_takeWhile_imp hc
  · intro c hc; exact List.mem_takeWhile_imp (List.mem_reverse.mp hc)
  · have h1 : pyRStrip l ++ (l.reverse.takeWhile pyIsSpace).reverse = l := by
      rw [pyRStrip, ← List.reverse_append, List.takeWhile_append_dropWhile,
        List.reverse_reverse]
    have h2 : (pyRStrip l).takeWhile pyIsSpace ++ pyStrip l = pyRStrip l := by
      rw [pyStrip, pyLStrip, List.takeWhile_append_dropWhile]
    rw [h2, h1]

theorem searchBracketInt_strip (l : List Char) (h : searchBracketInt l = true) :
    searchBracketInt (pyStrip l) = true := by
  obtain ⟨w1, w2, hw1, hw2, heq⟩ := strip_decomposition l
  rw [heq, List.append_assoc, searchBracketInt_space_prefix w1 _ hw1] at h
  exact searchBracketInt_append_space _ w2 hw2 h

/-- Claim C3: a line containing a bracketed integer pattern such as `[12]` is
never a heading: the citation-marker rejection rule (line 37 of the
source) fires before every acceptance rule and before the score, and all
earlier rejection rules also return `false`, so `is_heading` is `false`
for every combination of the style parameters. -/
theorem bracket_citation_rejected (line : List Char) (fs : Option ℚ)
    (b : Bool) (y x w pw : Option ℚ) (h : searchBracketInt line = true) :
    is_heading line fs b y x w pw = false := by
  unfold is_heading
  by_cases he : (pyStrip line).isEmpty
  · simp [he]
  · simp only [he, Bool.false_eq_true, if_false]
    exact is_heading_core_false_of_bracket _ fs b y x w pw
      (searchBracketInt_strip line h)

/-- Witness for C3: a bold, large-font, top-of-page line containing
`[12]` is still rejected. -/
theorem bracket_citation_rejected_witness :
    searchBracketInt "EXPERIMENTS [12]".toList = true ∧
    is_heading "EXPERIMENTS [12]".toList (some 16) true (some 0.1)
      (some 250) (some 110) (some 612) = false :=
  ⟨by decide, bracket_citation_rejected "EXPERIMENTS [12]".toList (some 16)
    true (some 0.1) (some 250) (some 110) (some 612) (by decide)⟩

/-- Claim C5: a line whose trimmed text is entirely lowercase (at least one
cased character, none uppercase) is never a heading, for every value of
the style parameters: the all-lowercase rejection rule (line 33 of the
source) returns `false`, as do the two rejection rules checked before
it. -/
theorem lowercase_rejected (line : List Char) (fs : Option ℚ) (b : Bool)
    (y x w pw : Option ℚ) (h : pyIsLower (pyStrip line) = true) :
    is_heading line fs b y x w pw = false := by
  unfold is_heading
  by_cases he : (pyStrip line).isEmpty
  · simp [he]
  · simp only [he, Bool.false_eq_true, if_false]
    exact is_heading_core_false_of_isLower _ fs b y x w pw h

/-- Witness for C5: a bold size-14 top-of-page lowercase line is still
rejected. -/
theorem lowercase_rejected_witness :
    pyIsLower (pyStrip "quarterly results overview".toList) = true ∧
    is_heading "quarterly results overview".toList (some 14) true (some 0.1)
      (some 250) (some 110) (some 612) = false :=
  ⟨by decide, lowercase_rejected "quarterly results overview".toList (some 14)
    true (some 0.1) (some 250) (some 110) (some 612) (by decide)⟩

/-- Counterexample for C1 as stated: the line "1 [2]" starts with a
numeric section prefix (digit then whitespace), yet `is_heading` returns
`false`, because the bracketed-integer rejection rule fires before the
numeric-prefix acceptance rule. -/
theorem numeric_start_rejected_cex :
    numericSectionStart (pyStrip "1 [2]".toList) = true ∧
    is_heading "1 [2]".toList (some 14) true (some 0.1) none none none = false := by
  constructor
  · decide
  · decide

/-- Claim C1 (amended): a line whose (stripped) text starts with a numeric
section prefix is accepted by `is_heading` regardless of the style
parameters, provided no rejection rule fires on it (word count at most
15; not both a period and more than 8 words; not all-lowercase; no
stoplist verb token; no bracketed integer; no leading bullet or arrow;
no terminal sentence punctuation other than a colon). -/
theorem numeric_start_accepted (line : List Char) (fs : Option ℚ) (b : Bool)
    (y x w pw : Option ℚ)
    (hnum : numericSectionStart (pyStrip line) = true)
    (h1 : wordCount (pyStrip line) ≤ 15)
    (h2 : (pyStrip line).contains '.' = false ∨ wordCount (pyStrip line) ≤ 8)
    (h3 : pyIsLower (pyStrip line) = false)
    (h4 : hasStopVerb (pyStrip line) = false)
    (h5 : searchBracketInt (pyStrip line) = false)
    (h6 : startsWithBullet (pyStrip line) = false)
    (h7 : endsSentencePunct (pyStrip line) = false ∨
      endsWithColon (pyStrip line) = true) :
    is_heading line fs b y x w pw = true := by
  have hne : (pyStrip line).isEmpty = false := by
    cases hl : pyStrip line with
    | nil => rw [hl] at hnum; exact absurd hnum (by decide)
    | cons c rest => rfl
  unfold is_heading
  rw [hne]
  simp only [Bool.false_eq_true, if_false]
  exact is_heading_core_true_of_accept _ fs b y x w pw h1 h2 h3 h4 h5 h6 h7
    (Or.inl hnum)

/-- Witness for C1 (amended): "1.2.3 Introduction" with no style
information at all is accepted. -/
theorem numeric_start_accepted_witness :
    numericSectionStart (pyStrip "1.2.3 Introduction".toList) = true ∧
    is_heading "1.2.3 Introduction".toList none false none none none none = true :=
  ⟨by decide, numeric_start_accepted "1.2.3 Introduction".toList none false
    none none none none (by decide) (by decide) (by decide) (by decide)
    (by decide) (by decide) (by decide) (by decide)⟩

/-- Counterexample for C4 as stated: for the line "1. Introduction" the
section-numbering regex `^\d+(\.\d+)*\s` does NOT match (the period
after "1" is not followed by a digit; backtracking cannot place `\s` on
the period), so the line is not accepted by the numeric-prefix
acceptance rule — even though `is_heading` does return `true` for the
stated style flags. -/
theorem scenarioB_regex_mismatch_cex :
    is_heading "1. Introduction".toList (some 14) true (some 0.1)
      none none none = true ∧
    numericSectionStart (pyStrip "1. Introduction".toList) = false := by
  constructor
  · decide
  · decide

/-- Claim C4 (amended): "1. Introduction" is accepted by `is_heading`
independently of every style parameter (hence independent of the
fallback score), but via the Title-Case acceptance rule of line 49 of
the source, not via the numeric-prefix rule: the regex
`^\d+(\.\d+)*\s` requires a digit after every period and therefore does
not match "1. ". -/
theorem scenarioB_accepted_via_titlecase :
    (∀ (fs : Option ℚ) (b : Bool) (y x w pw : Option ℚ),
      is_heading "1. Introduction".toList fs b y x w pw = true) ∧
    pyIsTitle (pyStrip "1. Introduction".toList) = true ∧
    numericSectionStart (pyStrip "1. Introduction".toList) = false := by
  refine ⟨fun fs b y x w pw => ?_, by decide, by decide⟩
  unfold is_heading
  rw [show (pyStrip "1. Introduction".toList).isEmpty = false from by decide]
  simp only [Bool.false_eq_true, if_false]
  exact is_heading_core_true_of_accept _ fs b y x w pw (by decide) (by decide)
    (by decide) (by decide) (by decide) (by decide) (by decide)
    (Or.inr (Or.inr (Or.inl (by decide))))

theorem headingScore_eq_noUpperBoost (t : List Char) (fs : Option ℚ) (b : Bool)
    (y x w pw : Option ℚ) (h : ¬ (pyIsUpper t = true ∧ 2 < t.length)) :
    headingScore t fs b y x w pw = headingScoreNoUpperBoost t fs b y x w pw := by
  unfold headingScore headingScoreNoUpperBoost
  rw [if_neg h, add_zero]

/-- The two cascade bodies agree everywhere: the uppercase scoring
contribution is only evaluated after the identical uppercase acceptance
rule has failed, so it always contributes 0. -/
theorem is_heading_core_eq_noUpperBoost (t : List Char) (fs : Option ℚ)
    (b : Bool) (y x w pw : Option ℚ) :
    is_heading_core t fs b y x w pw =
      is_heading_core_noUpperBoost t fs b y x w pw := by
  unfold is_heading_core is_heading_core_noUpperBoost
  by_cases c1 : 15 < wordCount t
  · rw [if_pos c1, if_pos c1]
  rw [if_neg c1, if_neg c1]
  by_cases c2 : t.contains '.' = true ∧ 8 < wordCount t
  · rw [if_pos c2, if_pos c2]
  rw [if_neg c2, if_neg c2]
  by_cases c3 : pyIsLower t = true
  · rw [if_pos c3, if_pos c3]
  rw [if_neg c3, if_neg c3]
  by_cases c4 : hasStopVerb t = true
  · rw [if_pos c4, if_pos c4]
  rw [if_neg c4, if_neg c4]
  by_cases c5 : searchBracketInt t = true
  · rw [if_pos c5, if_pos c5]
  rw [if_neg c5, if_neg c5]
  by_cases c6 : startsWithBullet t = true
  · rw [if_pos c6, if_pos c6]
  rw [if_neg c6, if_neg c6]
  by_cases c7 : endsSentencePunct t = true ∧ ¬ endsWithColon t = true
  · rw [if_pos c7, if_pos c7]
  rw [if_neg c7, if_neg c7]
  by_cases c8 : numericSectionStart t = true
  · rw [if_pos c8, if_pos c8]
  rw [if_neg c8, if_neg c8]
  by_cases c9 : endsWithColon t = true
  · rw [if_pos c9, if_pos c9]
  rw [if_neg c9, if_neg c9]
  by_cases c10 : pyIsTitle t = true
  · rw [if_pos c10, if_pos c10]
  rw [if_neg c10, if_neg c10]
  by_cases c11 : pyIsUpper t = true ∧ 2 < t.length
  · rw [if_pos c11, if_pos c11]
  rw [if_neg c11, if_neg c11]
  rw [headingScore_eq_noUpperBoost t fs b y x w pw c11]

/-- Claim C9: the `+0.2 if uppercase and length > 2` scoring contribution of
line 64 of the source is dead logic: `is_heading` is extensionally equal
to the variant with that contribution removed, because every line
satisfying the condition was already accepted by the identical
acceptance rule of line 51 and never reaches the scoring branch. -/
theorem upper_score_term_dead (line : List Char) (fs : Option ℚ) (b : Bool)
    (y x w pw : Option ℚ) :
    is_heading line fs b y x w pw = is_heading_noUpperBoost line fs b y x w pw := by
  unfold is_heading is_heading_noUpperBoost
  by_cases he : (pyStrip line).isEmpty
  · simp [he]
  · simp only [he, Bool.false_eq_true, if_false]
    exact is_heading_core_eq_noUpperBoost _ fs b y x w pw

/-- Witness for C9 at a line that actually reaches the scoring branch
(not Title Case, not uppercase, no pattern rule fires). -/
theorem upper_score_term_dead_witness :
    is_heading "Overview of the 2024 budget".toList (some 14) true (some 0.1)
      none none none =
    is_heading_noUpperBoost "Overview of the 2024 budget".toList (some 14) true
      (some 0.1) none none none :=
  upper_score_term_dead "Overview of the 2024 budget".toList (some 14) true
    (some 0.1) none none none

theorem lineToHeading_page (p : Page) (n : Nat) (ln : RawLine) (h : Heading)
    (he : lineToHeading p n ln = some h) : h.page = n := by
  unfold lineToHeading at he
  by_cases h1 : (lineText ln).isEmpty
  · rw [if_pos h1] at he; exact Option.noConfusion he
  rw [if_neg h1] at he
  by_cases h2 : is_heading (lineText ln) (lineFontSize ln) (lineIsBold ln)
      (lineYPos p ln) (lineXPos ln) (lineWidth ln) (some p.rectWidth)
  · rw [if_pos h2] at he
    cases he
    rfl
  · rw [if_neg h2] at he
    exact Option.noConfusion he

theorem mem_headingsOfPage_page (n : Nat) (p : Page) (h : Heading)
    (hm : h ∈ headingsOfPage n p) : h.page = n := by
  unfold headingsOfPage at hm
  rw [List.mem_flatMap] at hm
  obtain ⟨blk, _, hblk⟩ := hm
  rw [List.mem_filterMap] at hblk
  obtain ⟨ln, _, hln⟩ := hblk
  exact lineToHeading_page p n ln h hln

theorem headingsFromPages_sorted (n : Nat) (ps : List Page) :
    List.Pairwise (fun a b : Heading => a.page ≤ b.page) (headingsFromPages n ps) ∧
    ∀ h ∈ headingsFromPages n ps, n ≤ h.page := by
  induction ps generalizing n with
  | nil => exact ⟨List.Pairwise.nil, fun h hm => absurd hm (by simp [headingsFromPages])⟩
  | cons p ps ih =>
    simp only [headingsFromPages]
    constructor
    · rw [List.pairwise_append]
      refine ⟨?_, (ih (n + 1)).1, ?_⟩
      · exact List.pairwise_of_forall_mem_list (fun a ha b hb => by
          rw [mem_headingsOfPage_page n p a ha, mem_headingsOfPage_page n p b hb])
      · intro a ha b hb
        rw [mem_headingsOfPage_page n p a ha]
        exact le_trans (Nat.le_succ n) ((ih (n + 1)).2 b hb)
    · intro h hm
      rcases List.mem_append.mp hm with hm | hm
      · rw [mem_headingsOfPage_page n p h hm]
      · exact le_trans (Nat.le_succ n) ((ih (n + 1)).2 h hm)

/-- Headings are extracted in non-decreasing page order: page loops run
pages in order and every heading of page `k` carries page number `k`. -/
theorem extract_headings_sorted (pages : List Page) :
    List.Pairwise (fun a b : Heading => a.page ≤ b.page)
      (extract_headings_from_pdf pages) :=
  (headingsFromPages_sorted 1 pages).1

theorem mem_zipWith_entry (hs : List Heading) (ls : List (List Char))
    (e : OutlineEntry)
    (hm : e ∈ List.zipWith (fun h lv => (⟨lv, h.text, h.page⟩ : OutlineEntry)) hs ls) :
    ∃ a ∈ hs, e.page = a.page := by
  induction hs generalizing ls with
  | nil => exact absurd hm (by simp)
  | cons h hs ih =>
    cases ls with
    | nil => exact absurd hm (by simp)
    | cons lv ls =>
      rw [List.zipWith_cons_cons] at hm
      rcases List.mem_cons.mp hm with he | hm'
      · exact ⟨h, by simp, by rw [he]⟩
      · obtain ⟨a, ha, hp⟩ := ih ls hm'
        exact ⟨a, by simp [ha], hp⟩

theorem pairwise_zipWith_page (hs : List Heading) (ls : List (List Char))
    (hp : List.Pairwise (fun a b : Heading => a.page ≤ b.page) hs) :
    List.Pairwise (fun a b : OutlineEntry => a.page ≤ b.page)
      (List.zipWith (fun h lv => (⟨lv, h.text, h.page⟩ : OutlineEntry)) hs ls) := by
  induction hs generalizing ls with
  | nil => simp
  | cons h hs ih =>
    cases ls with
    | nil => simp
    | cons lv ls =>
      rw [List.zipWith_cons_cons]
      rcases List.pairwise_cons.mp hp with ⟨hh, hp2⟩
      refine List.Pairwise.cons ?_ (ih ls hp2)
      intro e he
      obtain ⟨a, ha, hpe⟩ := mem_zipWith_entry hs ls e he
      rw [hpe]
      exact hh a ha

theorem zipWith_take_left {α β γ : Type} (f : α → β → γ) (as : List α)
    (bs : List β) :
    List.zipWith f as bs = List.zipWith f (as.take bs.length) bs := by
  induction as generalizing bs with
  | nil => simp
  | cons a as ih =>
    cases bs with
    | nil => simp
    | cons b bs => simp [List.zipWith_cons_cons, ih bs]

/-- Claim C6: on a document in which no line passes the candidate filter,
`process_pdf` returns `{ title, outline: [] }` where the title is still
computed by the title-extraction logic; the result does not depend on
the classifier arguments at all (in particular a failing `loadModel` or
`predict` is never reached), so the classifier is never loaded or
invoked. -/
theorem no_candidates_empty_outline {E M : Type} (lm : Except E M)
    (pr : M → List (List Char) → Except E (List (List Char))) (doc : Document)
    (hz : extract_headings_from_pdf doc.pages = []) :
    process_pdf lm pr doc =
      Except.ok ⟨extract_title_from_pdf doc.pageText doc.stem, []⟩ := by
  simp [process_pdf, hz]

/-- Witness for C6: a document whose only line is rejected body text,
run against a classifier whose loading and prediction both fail — the
result is still the successful empty outline. -/
theorem no_candidates_empty_outline_witness :
    extract_headings_from_pdf docNoHeadings.pages = [] ∧
    process_pdf (Except.error () : Except Unit Unit)
      (fun _ _ => Except.error ()) docNoHeadings =
      Except.ok
        ⟨extract_title_from_pdf docNoHeadings.pageText docNoHeadings.stem, []⟩ :=
  ⟨by decide, no_candidates_empty_outline (Except.error ())
    (fun _ _ => Except.error ()) docNoHeadings (by decide)⟩

/-- Claim C7: on a document with at least one accepted heading candidate, a
failure of classifier loading (`joblib.load`) or of `model.predict` is
propagated by `process_pdf` to its caller; it is never converted into a
successful `{ title, outline: [] }` result. -/
theorem classifier_error_propagates {E M : Type} (lm : Except E M)
    (pr : M → List (List Char) → Except E (List (List Char))) (doc : Document)
    (e : E) (hne : extract_headings_from_pdf doc.pages ≠ [])
    (herr : lm = Except.error e ∨ ∃ m, lm = Except.ok m ∧
      pr m ((extract_headings_from_pdf doc.pages).map Heading.text) =
        Except.error e) :
    process_pdf lm pr doc = Except.error e := by
  have hne2 : (extract_headings_from_pdf doc.pages).isEmpty = false := by
    cases hl : extract_headings_from_pdf doc.pages with
    | nil => exact absurd hl hne
    | cons h hs => rfl
  rcases herr with hl | ⟨m, hm, hp⟩
  · simp [process_pdf, hne2, hl]
  · simp [process_pdf, hne2, hm, hp]

/-- Witness for C7: Scenario F's document (two accepted headings) with a
failing model load propagates the error value. -/
theorem classifier_error_propagates_witness :
    extract_headings_from_pdf docScenarioF.pages ≠ [] ∧
    process_pdf (Except.error 7 : Except Nat Unit)
      (fun _ _ => Except.ok ["H1".toList, "H2".toList]) docScenarioF =
      Except.error 7 :=
  ⟨by decide, classifier_error_propagates (Except.error 7)
    (fun _ _ => Except.ok ["H1".toList, "H2".toList]) docScenarioF 7
    (by decide) (Or.inl rfl)⟩

/-- Claim C2: when the classifier succeeds on the candidate texts (in document
order) with a same-length label list, `process_pdf` returns the outline
obtained by zipping the candidates with the labels 1:1 — entry `i`
carries the `i`-th candidate's text and page and the `i`-th label — the
outline has exactly one entry per candidate, and page numbers are
non-decreasing across entries; within a page, entries keep the original
line order because the candidate list is built in reading order. -/
theorem outline_one_per_candidate {E M : Type} (lm : Except E M)
    (pr : M → List (List Char) → Except E (List (List Char))) (doc : Document)
    (m : M) (ls : List (List Char))
    (hlm : lm = Except.ok m)
    (hpr : pr m ((extract_headings_from_pdf doc.pages).map Heading.text) =
      Except.ok ls)
    (hlen : ls.length = (extract_headings_from_pdf doc.pages).length) :
    process_pdf lm pr doc =
      Except.ok ⟨extract_title_from_pdf doc.pageText doc.stem,
        List.zipWith (fun h lv => (⟨lv, h.text, h.page⟩ : OutlineEntry))
          (extract_headings_from_pdf doc.pages) ls⟩ ∧
    (List.zipWith (fun h lv => (⟨lv, h.text, h.page⟩ : OutlineEntry))
      (extract_headings_from_pdf doc.pages) ls).length =
      (extract_headings_from_pdf doc.pages).length ∧
    List.Pairwise (fun a b : OutlineEntry => a.page ≤ b.page)
      (List.zipWith (fun h lv => (⟨lv, h.text, h.page⟩ : OutlineEntry))
        (extract_headings_from_pdf doc.pages) ls) := by
  refine ⟨?_, ?_, ?_⟩
  · by_cases hz : (extract_headings_from_pdf doc.pages).isEmpty
    · have hz2 : extract_headings_from_pdf doc.pages = [] := List.isEmpty_iff.mp hz
      simp [process_pdf, hz2]
    · rw [Bool.not_eq_true] at hz
      simp [process_pdf, hz, hlm, hpr]
  · simp [List.length_zipWith, hlen]
  · exact pairwise_zipWith_page _ ls (extract_headings_sorted doc.pages)

/-- Witness for C2: Scenario F — classifier labels ["H1", "H2"] for the
two candidates of `docScenarioF`. -/
theorem outline_one_per_candidate_witness :
    process_pdf (Except.ok () : Except Unit Unit)
      (fun _ _ => Except.ok ["H1".toList, "H2".toList]) docScenarioF =
      Except.ok ⟨extract_title_from_pdf docScenarioF.pageText docScenarioF.stem,
        List.zipWith (fun h lv => (⟨lv, h.text, h.page⟩ : OutlineEntry))
          (extract_headings_from_pdf docScenarioF.pages)
          ["H1".toList, "H2".toList]⟩ ∧
    (List.zipWith (fun h lv => (⟨lv, h.text, h.page⟩ : OutlineEntry))
      (extract_headings_from_pdf docScenarioF.pages)
      ["H1".toList, "H2".toList]).length =
      (extract_headings_from_pdf docScenarioF.pages).length ∧
    List.Pairwise (fun a b : OutlineEntry => a.page ≤ b.page)
      (List.zipWith (fun h lv => (⟨lv, h.text, h.page⟩ : OutlineEntry))
        (extract_headings_from_pdf docScenarioF.pages)
        ["H1".toList, "H2".toList]) :=
  outline_one_per_candidate (Except.ok ())
    (fun _ _ => Except.ok ["H1".toList, "H2".toList]) docScenarioF ()
    ["H1".toList, "H2".toList] rfl rfl (by decide)

/-- Claim C10: `process_pdf` does not enforce the classifier's same-length
contract.  If `predict` succeeds with `m` labels for `n > m` candidates,
`process_pdf` still returns `Except.ok`: `zip` truncates, so the outline
has exactly `m` entries — the first `m` candidates zipped with the
labels — and the remaining candidates are silently dropped. -/
theorem short_labels_truncate_outline {E M : Type} (lm : Except E M)
    (pr : M → List (List Char) → Except E (List (List Char))) (doc : Document)
    (m : M) (ls : List (List Char))
    (hlm : lm = Except.ok m)
    (hpr : pr m ((extract_headings_from_pdf doc.pages).map Heading.text) =
      Except.ok ls)
    (hlen : ls.length < (extract_headings_from_pdf doc.pages).length) :
    process_pdf lm pr doc =
      Except.ok ⟨extract_title_from_pdf doc.pageText doc.stem,
        List.zipWith (fun h lv => (⟨lv, h.text, h.page⟩ : OutlineEntry))
          (extract_headings_from_pdf doc.pages) ls⟩ ∧
    (List.zipWith (fun h lv => (⟨lv, h.text, h.page⟩ : OutlineEntry))
      (extract_headings_from_pdf doc.pages) ls).length = ls.length ∧
    List.zipWith (fun h lv => (⟨lv, h.text, h.page⟩ : OutlineEntry))
      (extract_headings_from_pdf doc.pages) ls =
    List.zipWith (fun h lv => (⟨lv, h.text, h.page⟩ : OutlineEntry))
      ((extract_headings_from_pdf doc.pages).take ls.length) ls := by
  have hne : (extract_headings_from_pdf doc.pages).isEmpty = false := by
    cases hl : extract_headings_from_pdf doc.pages with
    | nil => rw [hl] at hlen; exact absurd hlen (by simp)
    | cons h hs => rfl
  refine ⟨by simp [process_pdf, hne, hlm, hpr], ?_, ?_⟩
  · rw [List.length_zipWith]
    omega
  · exact zipWith_take_left _ _ ls

/-- Witness for C10: `docScenarioF` has two candidates but the
classifier returns a single label; the outline has exactly one entry. -/
theorem short_labels_truncate_outline_witness :
    process_pdf (Except.ok () : Except Unit Unit)
      (fun _ _ => Except.ok ["H1".toList]) docScenarioF =
      Except.ok ⟨extract_title_from_pdf docScenarioF.pageText docScenarioF.stem,
        List.zipWith (fun h lv => (⟨lv, h.text, h.page⟩ : OutlineEntry))
          (extract_headings_from_pdf docScenarioF.pages) ["H1".toList]⟩ ∧
    (List.zipWith (fun h lv => (⟨lv, h.text, h.page⟩ : OutlineEntry))
      (extract_headings_from_pdf docScenarioF.pages) ["H1".toList]).length = 1 ∧
    List.zipWith (fun h lv => (⟨lv, h.text, h.page⟩ : OutlineEntry))
      (extract_headings_from_pdf docScenarioF.pages) ["H1".toList] =
    List.zipWith (fun h lv => (⟨lv, h.text, h.page⟩ : OutlineEntry))
      ((extract_headings_from_pdf docScenarioF.pages).take 1) ["H1".toList] :=
  short_labels_truncate_outline (Except.ok ())
    (fun _ _ => Except.ok ["H1".toList]) docScenarioF () ["H1".toList]
    rfl rfl (by decide)

theorem dropWhile_head?_false {α : Type} (p : α → Bool) (l : List α) (c : α)
    (h : (l.dropWhile p).head? = some c) : p c = false := by
  induction l with
  | nil => exact absurd h (by simp)
  | cons a l ih =>
    rw [List.dropWhile_cons] at h
    by_cases hp : p a = true
    · rw [if_pos hp] at h
      exact ih h
    · rw [if_neg hp] at h
      have : a = c := by injection h
      rw [← this, Bool.not_eq_true] at *
      exact hp

theorem pyLStrip_eq_self (l : List Char)
    (h : ∀ c, l.head? = some c → pyIsSpace c = false) : pyLStrip l = l := by
  cases l with
  | nil => rfl
  | cons a t =>
    rw [pyLStrip, List.dropWhile_cons, if_neg (by simp [h a rfl])]

theorem pyRStrip_eq_self (l : List Char)
    (h : ∀ c, l.getLast? = some c → pyIsSpace c = false) : pyRStrip l = l := by
  unfold pyRStrip
  have hrev : l.reverse.dropWhile pyIsSpace = l.reverse := by
    cases hl : l.reverse with
    | nil => rfl
    | cons a t =>
      have ha : l.getLast? = some a := by
        rw [← List.head?_reverse, hl]
        rfl
      rw [List.dropWhile_cons, if_neg (by simp [h a ha])]
  rw [hrev, List.reverse_reverse]

theorem getLast?_strip_not_space (l : List Char) (c : Char)
    (h : (pyStrip l).getLast? = some c) : pyIsSpace c = false := by
  have h2 : (pyRStrip l).getLast? = some c := by
    conv_lhs => rw [← List.takeWhile_append_dropWhile pyIsSpace (pyRStrip l)]
    rw [List.getLast?_append]
    rw [show ((pyRStrip l).dropWhile pyIsSpace).getLast? = some c from h]
    rfl
  rw [pyRStrip, List.getLast?_reverse] at h2
  exact dropWhile_head?_false pyIsSpace l.reverse c h2

theorem space_isTitleDecor {c : Char} (h : pyIsSpace c = true) :
    isTitleDecor c = true := by
  simp [isTitleDecor, h]

/-- The extra `.strip()` of line 121 of the source is a no-op: after the
leading `[0-9\s\.\-]+` run is removed from an already-stripped line,
neither end can hold whitespace. -/
theorem strip_dropWhile_decor_strip (l : List Char) :
    pyStrip ((pyStrip l).dropWhile isTitleDecor) =
      (pyStrip l).dropWhile isTitleDecor := by
  have hhead : ∀ c, ((pyStrip l).dropWhile isTitleDecor).head? = some c →
      pyIsSpace c = false := by
    intro c hc
    have hdec := dropWhile_head?_false isTitleDecor (pyStrip l) c hc
    cases hsp : pyIsSpace c with
    | false => rfl
    | true => rw [space_isTitleDecor hsp] at hdec; exact Bool.noConfusion hdec
  have hlast : ∀ c, ((pyStrip l).dropWhile isTitleDecor).getLast? = some c →
      pyIsSpace c = false := by
    intro c hc
    apply getLast?_strip_not_space l c
    conv_lhs => rw [← List.takeWhile_append_dropWhile isTitleDecor (pyStrip l)]
    rw [List.getLast?_append, hc]
    rfl
  rw [pyStrip, pyRStrip_eq_self _ hlast, pyLStrip_eq_self _ hhead]

theorem firstTitle_eq_findSome (lines : List (List Char)) :
    firstTitle lines = lines.findSome? titleCandidate := by
  induction lines with
  | nil => rfl
  | cons l rest ih =>
    rw [List.findSome?_cons]
    unfold firstTitle
    by_cases hc : ¬ (pyStrip l).isEmpty ∧ 3 < (pyStrip l).length ∧
        (pyStrip l).length < 200
    · rw [if_pos hc]
      by_cases hr : (pyStrip ((pyStrip l).dropWhile isTitleDecor)).isEmpty = true
      · have hr2 : ((pyStrip l).dropWhile isTitleDecor).isEmpty = true := by
          rw [strip_dropWhile_decor_strip l] at hr
          exact hr
        rw [if_neg (fun hh => hh hr)]
        have hnone : titleCandidate l = none := by
          unfold titleCandidate
          rw [if_neg]
          rintro ⟨_, _, h3⟩
          exact h3 hr2
        rw [hnone]
        exact ih
      · rw [if_pos hr]
        have hr2 : ¬ ((pyStrip l).dropWhile isTitleDecor).isEmpty = true := by
          rw [← strip_dropWhile_decor_strip l]
          exact hr
        have hsome : titleCandidate l =
            some ((pyStrip l).dropWhile isTitleDecor) := by
          unfold titleCandidate
          rw [if_pos ⟨hc.2.1, hc.2.2, hr2⟩]
        rw [hsome, strip_dropWhile_decor_strip l]
    · rw [if_neg hc]
      have hnone : titleCandidate l = none := by
        unfold titleCandidate
        rw [if_neg]
        rintro ⟨h1, h2, _⟩
        have hne : ¬ (pyStrip l).isEmpty = true := by
          intro hh
          rw [List.isEmpty_iff.mp hh] at h1
          exact absurd h1 (by simp)
        exact hc ⟨hne, h1, h2⟩
      rw [hnone]
      exact ih

/-- Claim C8: the source title extractor agrees everywhere with the
specification-side extractor: among at most the first 5 lines of the
page-1 text, the first line whose trimmed length is strictly between 3
and 200 and which is non-empty after removal of its leading run of
digits, whitespace, periods and hyphens yields the title (the stripped
remainder); otherwise — including the unreadable-page case — the
filename stem with underscores replaced by spaces, title-cased, is
returned. -/
theorem extract_title_matches_spec (pageText : Option (List Char))
    (stem : List Char) :
    extract_title_from_pdf pageText stem = extract_title_spec pageText stem := by
  cases pageText with
  | none => rfl
  | some txt =>
    simp only [extract_title_from_pdf, extract_title_spec]
    by_cases he : txt.isEmpty
    · rw [if_pos he, List.isEmpty_iff.mp he]
      rfl
    · rw [if_neg he, firstTitle_eq_findSome]

/-- Witness for C8 at Scenario E's input: the first line "2024" is
skipped (cleaning empties it), the second line wins. -/
theorem extract_title_matches_spec_witness :
    extract_title_from_pdf (some "2024\nAcme Corp Annual Report\nbody".toList)
      "report".toList =
    extract_title_spec (some "2024\nAcme Corp Annual Report\nbody".toList)
      "report".toList :=
  extract_title_matches_spec (some "2024\nAcme Corp Annual Report\nbody".toList)
    "report".toList
